import Mathlib

/-!
Shallow embedding of the rentex widget/layout/dirty-tracking core
(src/mouse.rs, src/widgets/mod.rs, src/widgets/button.rs,
src/widgets/manager.rs, src/layout.rs).

Conventions of the embedding:
* Rust f32 values are modelled as rationals; every quantity the claims
  touch is exact small-integer arithmetic, no rounding occurs.
* The only concrete widget in the snapshot is ButtonWidget, so the
  Vec of Box of dyn Widget is modelled as a list of ButtonWidget and the
  phantom-typed WidgetHandle of T carries just the numeric identity
  (the downcast in get/get_mut always succeeds at this one type).
* Methods that mutate through a mutable reference become functions from
  the old state to the new state (returned together with the Rust return
  value where there is one); panicking lookups return Option.
* The unbounded recursion over container indices in layout.rs is given an
  explicit fuel argument; fuel zero returns the dummy result / leaves the
  widgets untouched.  Any fuel at least the nesting depth reproduces the
  source behaviour, and the theorems quantify over or instantiate fuel.
-/

namespace Rentex

/-- Rust f32, modelled as an exact rational. -/
abbrev F32 := ℚ

/-- Rust [f32; 4] RGBA color. -/
abbrev Color := F32 × F32 × F32 × F32

/-- MouseState (src/mouse.rs lines 1-22): current position, per-frame
deltas, three button channels with level and one-frame edge flags, and
scroll deltas. -/
structure MouseState where
  x : F32 := 0
  y : F32 := 0
  dx : F32 := 0
  dy : F32 := 0
  left_pressed : Bool := false
  left_just_pressed : Bool := false
  left_just_released : Bool := false
  right_pressed : Bool := false
  right_just_pressed : Bool := false
  right_just_released : Bool := false
  middle_pressed : Bool := false
  middle_just_pressed : Bool := false
  middle_just_released : Bool := false
  scroll_x : F32 := 0
  scroll_y : F32 := 0
deriving DecidableEq

/-- Rect (src/widgets/mod.rs lines 12-18). -/
structure Rect where
  x : F32 := 0
  y : F32 := 0
  w : F32 := 0
  h : F32 := 0
deriving DecidableEq

/-- Rect::contains (src/widgets/mod.rs lines 20-24):
x >= self.x && x <= self.x + self.w && y >= self.y && y <= self.y + self.h. -/
def Rect.contains (r : Rect) (x y : F32) : Bool :=
  decide (x ≥ r.x) && decide (x ≤ r.x + r.w) &&
  decide (y ≥ r.y) && decide (y ≤ r.y + r.h)

/-- ButtonWidget (src/widgets/button.rs lines 7-24): configuration plus
transient interaction state. -/
structure ButtonWidget where
  id : Nat
  bounds : Rect
  text : String
  font : Option Nat
  color : Color
  hover_color : Option Color
  press_color : Option Color
  auto_size : Bool
  hovered : Bool
  pressed : Bool
  just_hovered : Bool
  just_unhovered : Bool
  just_clicked : Bool
  just_pressed : Bool
  right_clicked : Bool
deriving DecidableEq

/-- ButtonWidget::new (src/widgets/button.rs lines 27-45). -/
def ButtonWidget.new (id : Nat) (text : String) : ButtonWidget where
  id := id
  bounds := {}
  text := text
  font := none
  color := (0, 0, 0, 0)
  hover_color := none
  press_color := none
  auto_size := false
  hovered := false
  pressed := false
  just_hovered := false
  just_unhovered := false
  just_clicked := false
  just_pressed := false
  right_clicked := false

/-- ButtonWidget::update (src/widgets/button.rs lines 95-110): recompute
the hover/press pulses from the snapshot, then update the pressed level
(a press edge inside the bounds wins over a release edge). -/
def ButtonWidget.update (b : ButtonWidget) (mouse : MouseState) : ButtonWidget :=
  let over := b.bounds.contains mouse.x mouse.y
  let b' := { b with
    just_hovered := over && !b.hovered
    just_unhovered := !over && b.hovered
    hovered := over
    just_pressed := over && mouse.left_just_pressed
    just_clicked := over && mouse.left_just_released && b.pressed
    right_clicked := over && mouse.right_just_released }
  if b'.just_pressed then { b' with pressed := true }
  else if mouse.left_just_released then { b' with pressed := false }
  else b'

/-- Modelled from the spec: the Widget trait declares set_bounds
(src/widgets/mod.rs line 29) and layout.rs calls it, but the snapshot's
ButtonWidget impl block omits it.  Per the spec's capability set
(bounds/set_bounds) it stores the given rect. -/
def ButtonWidget.set_bounds (b : ButtonWidget) (bounds : Rect) : ButtonWidget :=
  { b with bounds := bounds }

/-- WidgetHandle (src/widgets/mod.rs lines 36-51): the stable numeric
identity; the phantom type tag is dropped because ButtonWidget is the
only concrete widget in the snapshot. -/
structure WidgetHandle where
  id : Nat
deriving DecidableEq

/-- WidgetManager (src/widgets/manager.rs lines 26-30). -/
structure WidgetManager where
  widgets : List ButtonWidget
  next_id : Nat
  dirty : Bool
deriving DecidableEq

/-- WidgetManager::new (src/widgets/manager.rs lines 32-39): starts with
no widgets, identity counter 0, and the dirty flag already set. -/
def WidgetManager.new : WidgetManager where
  widgets := []
  next_id := 0
  dirty := true

/-- WidgetManager::alloc_id (src/widgets/manager.rs lines 41-45). -/
def WidgetManager.alloc_id (m : WidgetManager) : Nat × WidgetManager :=
  (m.next_id, { m with next_id := m.next_id + 1 })

/-- WidgetManager::button (src/widgets/manager.rs lines 47-51): allocate
an identity, push the new widget, return the handle.  Note the source
does not touch the dirty flag here. -/
def WidgetManager.button (m : WidgetManager) (text : String) :
    WidgetHandle × WidgetManager :=
  let (id, m') := m.alloc_id
  (⟨id⟩, { m' with widgets := m'.widgets ++ [ButtonWidget.new id text] })

/-- WidgetManager::get (src/widgets/manager.rs lines 53-61): linear
lookup by identity; the panic on a missing identity becomes none (the
downcast always succeeds at the single concrete widget type). -/
def WidgetManager.get (m : WidgetManager) (h : WidgetHandle) :
    Option ButtonWidget :=
  m.widgets.find? (fun w => w.id == h.id)

/-- WidgetManager::get_mut (src/widgets/manager.rs lines 63-72): the same
lookup, returning the WidgetMut borrow, i.e. the found widget together
with the manager state as it is when the borrow is handed out.  The
lookup itself does not touch the dirty flag; only the borrow's deref_mut
does. -/
def WidgetManager.get_mut (m : WidgetManager) (h : WidgetHandle) :
    Option (ButtonWidget × WidgetManager) :=
  (m.widgets.find? (fun w => w.id == h.id)).map (fun w => (w, m))

/-- WidgetMut::deref_mut (src/widgets/manager.rs lines 16-24): mutably
dereferencing the borrow sets the manager's dirty flag through the
captured reference. -/
def WidgetMut.deref_mut (m : WidgetManager) : WidgetManager :=
  { m with dirty := true }

/-- The loop body of WidgetManager::update_all (src/widgets/manager.rs
lines 74-94), recursing over the widget list: for each widget, hover
state against the previous mouse position (current minus delta), then
the widget's own update, then hover against the current position; the
changed flag accumulates hover flips and left/right button edges. -/
def updateAllGo (mouse : MouseState) : List ButtonWidget → Bool × List ButtonWidget
  | [] => (false, [])
  | w :: ws =>
    let was_hovered := w.bounds.contains (mouse.x - mouse.dx) (mouse.y - mouse.dy)
    let w' := w.update mouse
    let is_hovered := w'.bounds.contains mouse.x mouse.y
    let changed_here :=
      (was_hovered != is_hovered)
      || mouse.left_just_pressed
      || mouse.left_just_released
      || mouse.right_just_pressed
      || mouse.right_just_released
    let rest := updateAllGo mouse ws
    (changed_here || rest.1, w' :: rest.2)

/-- WidgetManager::update_all (src/widgets/manager.rs lines 74-94). -/
def WidgetManager.update_all (m : WidgetManager) (mouse : MouseState) :
    Bool × WidgetManager :=
  let r := updateAllGo mouse m.widgets
  (r.1, { m with widgets := r.2 })

/-- WidgetManager::take_dirty (src/widgets/manager.rs lines 96-100):
return the accumulated flag and clear it. -/
def WidgetManager.take_dirty (m : WidgetManager) : Bool × WidgetManager :=
  (m.dirty, { m with dirty := false })

/-- A run of successive factory calls on one manager (the only factory in
the snapshot is button), collecting the returned handles in call order. -/
def runButtons : WidgetManager → List String → List WidgetHandle × WidgetManager
  | m, [] => ([], m)
  | m, t :: ts =>
    let (h, m') := m.button t
    let rest := runButtons m' ts
    (h :: rest.1, rest.2)

/-- Direction (src/layout.rs line 5). -/
inductive Direction where
  | H
  | V
deriving DecidableEq

/-- Child (src/layout.rs lines 7-10): a widget reference by identity or a
nested container reference by index into the manager's container table. -/
inductive Child where
  | widget (id : Nat)
  | container (idx : Nat)
deriving DecidableEq

/-- Container (src/layout.rs lines 12-19). -/
structure Container where
  direction : Direction
  x : F32
  y : F32
  padding : F32
  gap : F32
  children : List Child
deriving DecidableEq

instance : Inhabited Container :=
  ⟨⟨Direction.H, 0, 0, 0, 0, []⟩⟩

/-- The net effect on the widget list of the pattern
if let Some(w) = widgets.iter_mut().find(..) followed by set_bounds with
only the position components changed (layout.rs lines 29-45 and 108-116):
the first widget whose identity matches gets its bounds' x and y
replaced, everything else is untouched. -/
def writePos (id : Nat) (px py : F32) : List ButtonWidget → List ButtonWidget
  | [] => []
  | w :: ws =>
    if w.id == id then w.set_bounds { w.bounds with x := px, y := py } :: ws
    else w :: writePos id px py ws

mutual

/-- measure_container (src/layout.rs lines 74-101): the pure, non-mutating
measuring pass.  The source recurses on container indices without a
structural bound; fuel zero returns the dummy (0, 0). -/
def measure_container (fuel : Nat) (c : Container) (containers : List Container)
    (widgets : List ButtonWidget) : F32 × F32 :=
  match fuel with
  | 0 => (0, 0)
  | fuel' + 1 =>
    let r := measure_children fuel' c containers widgets c.children c.padding 0
    match c.direction with
    | Direction.H => (r.1 - c.gap + c.padding, r.2 + c.padding * 2)
    | Direction.V => (r.2 + c.padding * 2, r.1 - c.gap + c.padding)
termination_by (fuel, 0)

/-- The for loop of measure_container: thread cursor and max_cross over
the children; a widget identity absent from the list is skipped. -/
def measure_children (fuel : Nat) (c : Container) (containers : List Container)
    (widgets : List ButtonWidget) (children : List Child) (cursor max_cross : F32) :
    F32 × F32 :=
  match children with
  | [] => (cursor, max_cross)
  | Child.widget id :: rest =>
    match widgets.find? (fun w => w.id == id) with
    | some w =>
      match c.direction with
      | Direction.H =>
        measure_children fuel c containers widgets rest
          (cursor + w.bounds.w + c.gap) (max max_cross w.bounds.h)
      | Direction.V =>
        measure_children fuel c containers widgets rest
          (cursor + w.bounds.h + c.gap) (max max_cross w.bounds.w)
    | none => measure_children fuel c containers widgets rest cursor max_cross
  | Child.container child_idx :: rest =>
    let m := measure_container fuel (containers.getD child_idx default) containers widgets
    match c.direction with
    | Direction.H =>
      measure_children fuel c containers widgets rest
        (cursor + m.1 + c.gap) (max max_cross m.2)
    | Direction.V =>
      measure_children fuel c containers widgets rest
        (cursor + m.2 + c.gap) (max max_cross m.1)
termination_by (fuel, children.length + 1)

end

mutual

/-- set_container_origin (src/layout.rs lines 103-127): the mutating
placement pass, writing positions into the widget list; fuel zero leaves
the widgets untouched. -/
def set_container_origin (fuel : Nat) (idx : Nat) (x y : F32)
    (containers : List Container) (widgets : List ButtonWidget) : List ButtonWidget :=
  match fuel with
  | 0 => widgets
  | fuel' + 1 =>
    let c := containers.getD idx default
    sco_children fuel' c containers c.children c.padding x y widgets
termination_by (fuel, 0)

/-- The for loop of set_container_origin: widget children are placed at
the cursor; container children are measured on the current state, placed
recursively, and the cursor advances by the measured extent plus gap. -/
def sco_children (fuel : Nat) (c : Container) (containers : List Container)
    (children : List Child) (cursor x y : F32) (widgets : List ButtonWidget) :
    List ButtonWidget :=
  match children with
  | [] => widgets
  | Child.widget id :: rest =>
    match widgets.find? (fun w => w.id == id) with
    | some w =>
      match c.direction with
      | Direction.H =>
        sco_children fuel c containers rest (cursor + w.bounds.w + c.gap) x y
          (writePos id (x + cursor) (y + c.padding) widgets)
      | Direction.V =>
        sco_children fuel c containers rest (cursor + w.bounds.h + c.gap) x y
          (writePos id (x + c.padding) (y + cursor) widgets)
    | none => sco_children fuel c containers rest cursor x y widgets
  | Child.container child_idx :: rest =>
    let m := measure_container fuel (containers.getD child_idx default) containers widgets
    match c.direction with
    | Direction.H =>
      sco_children fuel c containers rest (cursor + m.1 + c.gap) x y
        (set_container_origin fuel child_idx (x + cursor) (y + c.padding) containers widgets)
    | Direction.V =>
      sco_children fuel c containers rest (cursor + m.2 + c.gap) x y
        (set_container_origin fuel child_idx (x + c.padding) (y + cursor) containers widgets)
termination_by (fuel, children.length + 1)

end

/-- The for loop of Container::compute (src/layout.rs lines 26-65):
like sco_children but placing relative to the container's own stored
origin and additionally accumulating the (cursor, max_cross) pair. -/
def compute_children (fuel : Nat) (c : Container) (containers : List Container)
    (children : List Child) (cursor max_cross : F32) (widgets : List ButtonWidget) :
    List ButtonWidget × (F32 × F32) :=
  match children with
  | [] => (widgets, (cursor, max_cross))
  | Child.widget id :: rest =>
    match widgets.find? (fun w => w.id == id) with
    | some w =>
      match c.direction with
      | Direction.H =>
        compute_children fuel c containers rest
          (cursor + w.bounds.w + c.gap) (max max_cross w.bounds.h)
          (writePos id (c.x + cursor) (c.y + c.padding) widgets)
      | Direction.V =>
        compute_children fuel c containers rest
          (cursor + w.bounds.h + c.gap) (max max_cross w.bounds.w)
          (writePos id (c.x + c.padding) (c.y + cursor) widgets)
    | none => compute_children fuel c containers rest cursor max_cross widgets
  | Child.container child_idx :: rest =>
    let m := measure_container fuel (containers.getD child_idx default) containers widgets
    match c.direction with
    | Direction.H =>
      compute_children fuel c containers rest
        (cursor + m.1 + c.gap) (max max_cross m.2)
        (set_container_origin fuel child_idx (c.x + cursor) (c.y + c.padding) containers widgets)
    | Direction.V =>
      compute_children fuel c containers rest
        (cursor + m.2 + c.gap) (max max_cross m.1)
        (set_container_origin fuel child_idx (c.x + c.padding) (c.y + cursor) containers widgets)

/-- Container::compute (src/layout.rs lines 22-71): place the children and
return the container's total size. -/
def Container.compute (fuel : Nat) (c : Container) (containers : List Container)
    (widgets : List ButtonWidget) : List ButtonWidget × (F32 × F32) :=
  let r := compute_children fuel c containers c.children c.padding 0 widgets
  match c.direction with
  | Direction.H => (r.1, (r.2.1 - c.gap + c.padding, r.2.2 + c.padding * 2))
  | Direction.V => (r.1, (r.2.2 + c.padding * 2, r.2.1 - c.gap + c.padding))

/-- LayoutManager (src/layout.rs lines 181-183). -/
structure LayoutManager where
  containers : List Container
deriving DecidableEq

/-- LayoutManager::new (src/layout.rs lines 186-188). -/
def LayoutManager.new : LayoutManager := ⟨[]⟩

/-- Replace the container at an index (the builder methods mutate
self.manager.containers[self.index] in place). -/
def modifyAt (f : Container → Container) : Nat → List Container → List Container
  | _, [] => []
  | 0, c :: cs => f c :: cs
  | n + 1, c :: cs => c :: modifyAt f n cs

/-- LayoutManager::hstack (src/layout.rs lines 190-199): push a fresh
horizontal container and return its index (the builder). -/
def LayoutManager.hstack (lm : LayoutManager) : Nat × LayoutManager :=
  (lm.containers.length, ⟨lm.containers ++ [⟨Direction.H, 0, 0, 0, 0, []⟩]⟩)

/-- LayoutManager::vstack (src/layout.rs lines 201-210). -/
def LayoutManager.vstack (lm : LayoutManager) : Nat × LayoutManager :=
  (lm.containers.length, ⟨lm.containers ++ [⟨Direction.V, 0, 0, 0, 0, []⟩]⟩)

/-- ContainerBuilder::position (src/layout.rs lines 144-149). -/
def builderPosition (lm : LayoutManager) (idx : Nat) (x y : F32) : LayoutManager :=
  ⟨modifyAt (fun c => { c with x := x, y := y }) idx lm.containers⟩

/-- ContainerBuilder::padding (src/layout.rs lines 151-154). -/
def builderPadding (lm : LayoutManager) (idx : Nat) (p : F32) : LayoutManager :=
  ⟨modifyAt (fun c => { c with padding := p }) idx lm.containers⟩

/-- ContainerBuilder::gap (src/layout.rs lines 156-159). -/
def builderGap (lm : LayoutManager) (idx : Nat) (g : F32) : LayoutManager :=
  ⟨modifyAt (fun c => { c with gap := g }) idx lm.containers⟩

/-- ContainerBuilder::add (src/layout.rs lines 161-164). -/
def builderAdd (lm : LayoutManager) (idx : Nat) (h : WidgetHandle) : LayoutManager :=
  ⟨modifyAt (fun c => { c with children := c.children ++ [Child.widget h.id] }) idx lm.containers⟩

/-- ContainerBuilder::add_container (src/layout.rs lines 166-169). -/
def builderAddContainer (lm : LayoutManager) (idx : Nat) (other : Nat) : LayoutManager :=
  ⟨modifyAt (fun c => { c with children := c.children ++ [Child.container other] }) idx lm.containers⟩

/-- The is_child classification in compute_all (src/layout.rs lines
255-262): an index is a child when some container lists it among its
container children. -/
def isChildAnywhere (containers : List Container) (idx : Nat) : Bool :=
  containers.any (fun c => c.children.any (fun ch =>
    match ch with
    | Child.container j => j == idx
    | Child.widget _ => false))

/-- The enumerate loop of compute_all (src/layout.rs lines 263-267):
containers not classified as children are roots and get computed, in
index order, threading the widget list through. -/
def compute_all_go (fuel : Nat) (all : List Container) :
    Nat → List Container → List ButtonWidget → List ButtonWidget
  | _, [], widgets => widgets
  | idx, c :: rest, widgets =>
    let widgets' :=
      if isChildAnywhere all idx then widgets
      else (Container.compute fuel c all widgets).1
    compute_all_go fuel all (idx + 1) rest widgets'

/-- LayoutManager::compute_all (src/layout.rs lines 254-268). -/
def LayoutManager.compute_all (fuel : Nat) (lm : LayoutManager)
    (widgets : List ButtonWidget) : List ButtonWidget :=
  compute_all_go fuel lm.containers 0 lm.containers widgets

/-! Proof infrastructure: the placement pass only ever reads widget
identities, widths and heights, and only ever writes positions.  We
factor each mutating walk into a pure plan of position writes plus an
application pass, which makes the idempotence of compute_all provable. -/

/-- The layout-relevant read view of a widget: identity, width, height. -/
def widSize (w : ButtonWidget) : Nat × F32 × F32 :=
  (w.id, w.bounds.w, w.bounds.h)

/-- The read view of the whole widget store. -/
def sizeView (ws : List ButtonWidget) : List (Nat × F32 × F32) :=
  ws.map widSize

/-- The identity list of the widget store. -/
def idsOf (ws : List ButtonWidget) : List Nat :=
  ws.map (fun w => w.id)

/-- The position view of the widget store (what claim C5 is about). -/
def posView (ws : List ButtonWidget) : List (Nat × F32 × F32) :=
  ws.map (fun w => (w.id, w.bounds.x, w.bounds.y))

/-- A recorded position write: target identity, new x, new y. -/
abbrev PosWrite := Nat × F32 × F32

/-- Overwrite a widget's position, keeping everything else. -/
def setPosF (px py : F32) (w : ButtonWidget) : ButtonWidget :=
  { w with bounds := { w.bounds with x := px, y := py } }

/-- Apply a list of position writes in order. -/
def applyWrites : List PosWrite → List ButtonWidget → List ButtonWidget
  | [], ws => ws
  | p :: P, ws => applyWrites P (writePos p.1 p.2.1 p.2.2 ws)

/-- Index of the first occurrence of an identity in an identity list
(where a position write lands, matching writePos). -/
def firstIdx (id : Nat) : List Nat → Option Nat
  | [] => none
  | j :: js => if j == id then some 0 else (firstIdx id js).map (· + 1)

/-- The last write in the list that lands on index i (later writes win). -/
def lastHit (ids : List Nat) (i : Nat) : List PosWrite → Option (F32 × F32)
  | [] => none
  | p :: P =>
    match lastHit ids i P with
    | some v => some v
    | none => if firstIdx p.1 ids = some i then some (p.2.1, p.2.2) else none

mutual

/-- The write plan of set_container_origin, reading all sizes from the
given (never-updated) widget store. -/
def planSCO (fuel : Nat) (idx : Nat) (x y : F32) (containers : List Container)
    (widgets : List ButtonWidget) : List PosWrite :=
  match fuel with
  | 0 => []
  | fuel' + 1 =>
    let c := containers.getD idx default
    planSCOChildren fuel' c containers c.children c.padding x y widgets
termination_by (fuel, 0)

/-- The write plan of sco_children. -/
def planSCOChildren (fuel : Nat) (c : Container) (containers : List Container)
    (children : List Child) (cursor x y : F32) (widgets : List ButtonWidget) :
    List PosWrite :=
  match children with
  | [] => []
  | Child.widget id :: rest =>
    match widgets.find? (fun w => w.id == id) with
    | some w =>
      match c.direction with
      | Direction.H =>
        (id, x + cursor, y + c.padding) ::
          planSCOChildren fuel c containers rest (cursor + w.bounds.w + c.gap) x y widgets
      | Direction.V =>
        (id, x + c.padding, y + cursor) ::
          planSCOChildren fuel c containers rest (cursor + w.bounds.h + c.gap) x y widgets
    | none => planSCOChildren fuel c containers rest cursor x y widgets
  | Child.container child_idx :: rest =>
    let m := measure_container fuel (containers.getD child_idx default) containers widgets
    match c.direction with
    | Direction.H =>
      planSCO fuel child_idx (x + cursor) (y + c.padding) containers widgets ++
        planSCOChildren fuel c containers rest (cursor + m.1 + c.gap) x y widgets
    | Direction.V =>
      planSCO fuel child_idx (x + c.padding) (y + cursor) containers widgets ++
        planSCOChildren fuel c containers rest (cursor + m.2 + c.gap) x y widgets
termination_by (fuel, children.length + 1)

end

/-- The write plan of compute_children. -/
def planComputeChildren (fuel : Nat) (c : Container) (containers : List Container)
    (children : List Child) (cursor : F32) (widgets : List ButtonWidget) :
    List PosWrite :=
  match children with
  | [] => []
  | Child.widget id :: rest =>
    match widgets.find? (fun w => w.id == id) with
    | some w =>
      match c.direction with
      | Direction.H =>
        (id, c.x + cursor, c.y + c.padding) ::
          planComputeChildren fuel c containers rest (cursor + w.bounds.w + c.gap) widgets
      | Direction.V =>
        (id, c.x + c.padding, c.y + cursor) ::
          planComputeChildren fuel c containers rest (cursor + w.bounds.h + c.gap) widgets
    | none => planComputeChildren fuel c containers rest cursor widgets
  | Child.container child_idx :: rest =>
    let m := measure_container fuel (containers.getD child_idx default) containers widgets
    match c.direction with
    | Direction.H =>
      planSCO fuel child_idx (c.x + cursor) (c.y + c.padding) containers widgets ++
        planComputeChildren fuel c containers rest (cursor + m.1 + c.gap) widgets
    | Direction.V =>
      planSCO fuel child_idx (c.x + c.padding) (c.y + cursor) containers widgets ++
        planComputeChildren fuel c containers rest (cursor + m.2 + c.gap) widgets

/-- The write plan of the compute_all root loop. -/
def planComputeAll (fuel : Nat) (all : List Container) :
    Nat → List Container → List ButtonWidget → List PosWrite
  | _, [], _ => []
  | idx, c :: rest, widgets =>
    if isChildAnywhere all idx then planComputeAll fuel all (idx + 1) rest widgets
    else
      planComputeChildren fuel c all c.children c.padding widgets ++
        planComputeAll fuel all (idx + 1) rest widgets

/-- The main-axis extent a child contributes inside a container of the
given direction: a widget child resolves through the store lookup, a
container child through the measuring pass. -/
def childMainExtent (fuel : Nat) (dir : Direction) (containers : List Container)
    (widgets : List ButtonWidget) : Child → Option F32
  | Child.widget id =>
    (widgets.find? (fun w => w.id == id)).map (fun w =>
      match dir with
      | Direction.H => w.bounds.w
      | Direction.V => w.bounds.h)
  | Child.container idx =>
    some
      (match dir with
      | Direction.H => (measure_container fuel (containers.getD idx default) containers widgets).1
      | Direction.V => (measure_container fuel (containers.getD idx default) containers widgets).2)

/-- Resolve every child of a list to its main-axis extent, failing when a
widget child's identity is absent from the store. -/
def childExtents (fuel : Nat) (dir : Direction) (cs : List Container)
    (ws : List ButtonWidget) : List Child → Option (List F32)
  | [] => some []
  | ch :: rest =>
    match childMainExtent fuel dir cs ws ch, childExtents fuel dir cs ws rest with
    | some e, some es => some (e :: es)
    | _, _ => none

/-! The concrete nested-layout scenario of the spec (claim C4): a root
hstack with gap 16 and padding 0 at (40, 40) containing vstack A (two
180 by 32 widgets, gap 10, padding 0) then vstack B (one 180 by 18
widget, padding 0). -/

/-- The three widgets of the scenario, with the sizes the spec gives. -/
def scenarioWidgets : List ButtonWidget :=
  [ { ButtonWidget.new 0 ("w0") with bounds := { w := 180, h := 32 } },
    { ButtonWidget.new 1 ("w1") with bounds := { w := 180, h := 32 } },
    { ButtonWidget.new 2 ("w2") with bounds := { w := 180, h := 18 } } ]

/-- Vstack A: two widgets, gap 10, padding 0. -/
def scenarioA : Container :=
  ⟨Direction.V, 0, 0, 0, 10, [Child.widget 0, Child.widget 1]⟩

/-- Vstack B: one widget, padding 0, gap 0. -/
def scenarioB : Container :=
  ⟨Direction.V, 0, 0, 0, 0, [Child.widget 2]⟩

/-- The root hstack at (40, 40), gap 16, padding 0, children A then B. -/
def scenarioRoot : Container :=
  ⟨Direction.H, 40, 40, 0, 16, [Child.container 0, Child.container 1]⟩

/-- The scenario's layout manager: A and B are children of the root, so
only the root is computed by compute_all. -/
def scenarioLM : LayoutManager :=
  ⟨[scenarioA, scenarioB, scenarioRoot]⟩

/-! Helper lemmas. -/

/-- ButtonWidget::update never touches the bounds. -/
theorem ButtonWidget.update_bounds (b : ButtonWidget) (m : MouseState) :
    (b.update m).bounds = b.bounds := by
  unfold ButtonWidget.update
  dsimp only
  split
  · rfl
  · split <;> rfl

/-- ButtonWidget::update leaves the identity unchanged. -/
theorem ButtonWidget.update_id (b : ButtonWidget) (m : MouseState) :
    (b.update m).id = b.id := by
  unfold ButtonWidget.update
  dsimp only
  split
  · rfl
  · split <;> rfl

/-! Claim C9: a fresh manager starts dirty. -/

/-- C9: a freshly constructed widget manager starts with its dirty flag
set, so the very first take_dirty call returns true with no widget ever
created, accessed or updated. -/
theorem new_manager_first_take_dirty :
    (WidgetManager.new.take_dirty).1 = true := rfl

/-! Claim C10: Rect::contains is inclusive on all four edges. -/

/-- C10: for every rect and point, contains returns true exactly when
r.x <= px <= r.x + r.w and r.y <= py <= r.y + r.h; in particular points
on the boundary count as contained. -/
theorem rect_contains_iff (r : Rect) (px py : F32) :
    r.contains px py = true ↔
      (r.x ≤ px ∧ px ≤ r.x + r.w ∧ r.y ≤ py ∧ py ≤ r.y + r.h) := by
  simp [Rect.contains, ge_iff_le, and_assoc]

/-! Claim C7: the claim says every factory call marks the manager dirty;
in the source, WidgetManager::button never touches the dirty flag. -/

/-- C7 counterexample: take the initial dirty flag, then create a widget;
the next take_dirty returns false, though the claim demands true after
any factory call. -/
theorem factory_leaves_clean_flag_cex :
    ((((WidgetManager.new.take_dirty).2.button ("ok")).2.take_dirty).1) = false := rfl

/-- C7 amended: a widget factory call leaves the dirty flag unchanged, so
the take_dirty that follows it returns exactly the flag's value from
before the call (a fresh manager reads true only because new() starts
dirty). -/
theorem factory_preserves_dirty (m : WidgetManager) (s : String) :
    ((m.button s).2).dirty = m.dirty := rfl

/-! Claim C2: the claim says get_mut itself marks the manager dirty; in
the source only WidgetMut::deref_mut sets the flag, the lookup does not. -/

/-- C2 counterexample: create a widget, drain the dirty flag, then call
get_mut (which succeeds) without dereferencing the returned borrow: the
next take_dirty returns false, though the claim demands true. -/
theorem get_mut_alone_not_dirty_cex :
    ((((WidgetManager.new.button ("ok")).2.take_dirty).2.get_mut
        (WidgetManager.new.button ("ok")).1).map
      (fun p => (p.2.take_dirty).1)) = some false := rfl

/-- C2 amended: a resolving get_mut leaves the dirty flag unchanged; a
mutable dereference of the returned borrow makes the next take_dirty
return true; and immediately after any take_dirty a second take_dirty
returns false. -/
theorem get_mut_deref_dirty_semantics (m : WidgetManager) (h : WidgetHandle)
    (w : ButtonWidget) (m' : WidgetManager)
    (hres : m.get_mut h = some (w, m')) :
    m'.dirty = m.dirty ∧ ((WidgetMut.deref_mut m').take_dirty).1 = true ∧
      (((m'.take_dirty).2).take_dirty).1 = false := by
  unfold WidgetManager.get_mut at hres
  cases hfind : m.widgets.find? (fun w => w.id == h.id) with
  | none => rw [hfind] at hres; simp at hres
  | some w0 =>
    rw [hfind] at hres
    simp only [Option.map_some', Option.some.injEq, Prod.mk.injEq] at hres
    rw [← hres.2]
    exact ⟨rfl, rfl, rfl⟩

/-- Witness for the amended C2 theorem at a concrete manager. -/
theorem get_mut_deref_dirty_semantics_witness :
    ((WidgetManager.new.button ("ok")).2).dirty =
        ((WidgetManager.new.button ("ok")).2).dirty ∧
      ((WidgetMut.deref_mut ((WidgetManager.new.button ("ok")).2)).take_dirty).1 = true ∧
      (((((WidgetManager.new.button ("ok")).2).take_dirty).2).take_dirty).1 = false :=
  get_mut_deref_dirty_semantics ((WidgetManager.new.button ("ok")).2)
    ⟨0⟩ (ButtonWidget.new 0 ("ok")) ((WidgetManager.new.button ("ok")).2) (by rfl)

/-! Claim C6: the claim says just_clicked fires on the release-processing
update whether the pointer is inside or outside the bounds; the source
requires the pointer to be inside. -/

/-- C6 counterexample: pointer enters the bounds, left press inside makes
the widget pressed, then the left release arrives with the pointer
outside the bounds: the release-processing update clears pressed but
just_clicked is false on it (and on every other call of the sequence),
though the claim demands true there. -/
theorem just_clicked_outside_release_cex :
    (let b0 : ButtonWidget :=
      { ButtonWidget.new 0 ("b") with bounds := ⟨0, 0, 10, 10⟩ }
    let b1 := b0.update { x := 5, y := 5, dx := 5, dy := 5 }
    let b2 := b1.update { x := 5, y := 5, left_pressed := true, left_just_pressed := true }
    let b3 := b2.update { x := 50, y := 50, dx := 45, dy := 45, left_just_released := true }
    b1.just_clicked = false ∧ b2.pressed = true ∧ b2.just_clicked = false ∧
      b3.just_clicked = false ∧ b3.pressed = false) := by
  refine ⟨?_, ?_, ?_, ?_, ?_⟩ <;>
    norm_num [ButtonWidget.update, ButtonWidget.new, Rect.contains]

/-- C6 amended: an update call sets just_clicked exactly when the pointer
is inside the widget's bounds, the left button was just released, and
the widget entered the call pressed; a release outside the bounds while
pressed therefore yields just_clicked false (it still clears pressed). -/
theorem just_clicked_characterization (b : ButtonWidget) (mouse : MouseState) :
    (b.update mouse).just_clicked =
      (b.bounds.contains mouse.x mouse.y && mouse.left_just_released && b.pressed) := by
  unfold ButtonWidget.update
  dsimp only
  split
  · rfl
  · split <;> rfl

/-! Claim C1: the claim says update_all returns true iff a containment
flip happened or any of the three buttons had an edge; the source checks
the edges of the left and right buttons only, and only inside the
per-widget loop, so an empty manager always reports false. -/

/-- C1 counterexample: with no widget stored a left press edge yields
false (the claim demands true), and with one stored widget and no
containment flip a middle press edge also yields false (the claim
demands true). -/
theorem update_all_missing_edges_cex :
    ((WidgetManager.new.update_all { left_just_pressed := true }).1 = false) ∧
      ((((WidgetManager.new.button ("b")).2).update_all
          { x := 50, y := 50, middle_just_pressed := true }).1 = false) := by
  constructor <;>
    norm_num [WidgetManager.update_all, WidgetManager.button, WidgetManager.new,
      WidgetManager.alloc_id, updateAllGo, ButtonWidget.update, ButtonWidget.new, Rect.contains]

/-- Per-widget loop characterization of the update_all changed flag. -/
theorem updateAllGo_fst (mouse : MouseState) (ws : List ButtonWidget) :
    (updateAllGo mouse ws).1 =
      (ws.any (fun w =>
          w.bounds.contains (mouse.x - mouse.dx) (mouse.y - mouse.dy)
            != w.bounds.contains mouse.x mouse.y)
        || (!ws.isEmpty
            && (mouse.left_just_pressed || mouse.left_just_released
                || mouse.right_just_pressed || mouse.right_just_released))) := by
  induction ws with
  | nil => rfl
  | cons w ws ih =>
    simp only [updateAllGo, ButtonWidget.update_bounds, List.any_cons, List.isEmpty_cons, ih,
      Bool.not_false, Bool.true_and]
    cases mouse.left_just_pressed <;> cases mouse.left_just_released <;>
      cases mouse.right_just_pressed <;> cases mouse.right_just_released <;>
      first | rfl | simp

/-- C1 amended: update_all returns true iff some stored widget's
bounds-containment flipped between the previous mouse position (current
minus delta) and the current one, or the manager stores at least one
widget and the left or right button had a just-pressed or just-released
edge; middle-button edges never contribute, and on an empty manager the
result is always false. -/
theorem update_all_changed_characterization (m : WidgetManager) (mouse : MouseState) :
    (m.update_all mouse).1 =
      (m.widgets.any (fun w =>
          w.bounds.contains (mouse.x - mouse.dx) (mouse.y - mouse.dy)
            != w.bounds.contains mouse.x mouse.y)
        || (!m.widgets.isEmpty
            && (mouse.left_just_pressed || mouse.left_just_released
                || mouse.right_just_pressed || mouse.right_just_released))) :=
  updateAllGo_fst mouse m.widgets

/-! Claim C8: factory-call identities are strictly increasing and never
reused. -/

/-- The identities handed out by a run of factory calls are exactly the
counter's consecutive range. -/
theorem runButtons_ids (m : WidgetManager) (ts : List String) :
    (runButtons m ts).1.map (fun h => h.id) = List.range' m.next_id ts.length := by
  induction ts generalizing m with
  | nil => rfl
  | cons t ts ih =>
    simp only [runButtons, List.map_cons, List.range'_succ, ih]
    rfl

/-- C8: for every sequence of factory calls on one manager, the returned
identities are strictly increasing in call order, hence pairwise
distinct; instantiating the sequence with any extension shows an
identity is never handed out again by that manager. -/
theorem factory_ids_strict_mono (m : WidgetManager) (ts : List String) :
    ((runButtons m ts).1.map (fun h => h.id)).Pairwise (· < ·) := by
  rw [runButtons_ids]
  exact List.pairwise_lt_range' m.next_id ts.length

/-! Claim C4: the concrete nested-layout scenario. -/

/-- C4: after compute_all on the scenario forest, widget 0 sits at
(40, 40), widget 1 at (40, 82), widget 2 at x = 236, and vstack A
measures 180 wide by 74 high. -/
theorem nested_layout_scenario :
    (let out := LayoutManager.compute_all 3 scenarioLM scenarioWidgets
    ((out.find? (fun w => w.id == 0)).map (fun w => (w.bounds.x, w.bounds.y)) = some (40, 40)) ∧
      ((out.find? (fun w => w.id == 1)).map (fun w => (w.bounds.x, w.bounds.y)) = some (40, 82)) ∧
      ((out.find? (fun w => w.id == 2)).map (fun w => w.bounds.x) = some 236) ∧
      measure_container 2 scenarioA scenarioLM.containers scenarioWidgets = (180, 74)) := by
  norm_num [LayoutManager.compute_all, compute_all_go, isChildAnywhere,
    Container.compute, compute_children, measure_container, measure_children,
    set_container_origin, sco_children, writePos, ButtonWidget.set_bounds,
    scenarioLM, scenarioA, scenarioB, scenarioRoot, scenarioWidgets,
    ButtonWidget.new, List.find?_cons_of_pos, List.find?_cons_of_neg,
    List.getD, List.any, max_def]

/-! Lemmas towards the idempotence of compute_all (claim C5): the
placement pass reads only identities and sizes and writes only
positions, so it factors through a pure plan of position writes. -/

/-- A position write never changes identities, widths or heights. -/
theorem writePos_sizeView (id : Nat) (px py : F32) (ws : List ButtonWidget) :
    sizeView (writePos id px py ws) = sizeView ws := by
  induction ws with
  | nil => rfl
  | cons w ws ih =>
    simp only [writePos]
    split
    · simp [sizeView, widSize, ButtonWidget.set_bounds]
    · simp only [sizeView, List.map_cons] at ih ⊢
      rw [ih]

/-- A position write never changes the identity list. -/
theorem writePos_idsOf (id : Nat) (px py : F32) (ws : List ButtonWidget) :
    idsOf (writePos id px py ws) = idsOf ws := by
  induction ws with
  | nil => rfl
  | cons w ws ih =>
    simp only [writePos]
    split
    · simp [idsOf, ButtonWidget.set_bounds]
    · simp only [idsOf, List.map_cons] at ih ⊢
      rw [ih]

/-- Two stores with the same size view resolve every identity lookup to
widgets with the same identity, width and height. -/
theorem find?_sizeView (id : Nat) :
    ∀ ws ws' : List ButtonWidget, sizeView ws = sizeView ws' →
      Option.map widSize (ws.find? (fun w => w.id == id)) =
        Option.map widSize (ws'.find? (fun w => w.id == id)) := by
  intro ws
  induction ws with
  | nil =>
    intro ws' h
    cases ws' with
    | nil => rfl
    | cons w' t' => simp [sizeView] at h
  | cons w t ih =>
    intro ws' h
    cases ws' with
    | nil => simp [sizeView] at h
    | cons w' t' =>
      simp only [sizeView, List.map_cons, List.cons.injEq] at h
      obtain ⟨hw, ht⟩ := h
      have hid : w.id = w'.id := congrArg Prod.fst hw
      by_cases hq : (w.id == id) = true
      · have hq2 : (w'.id == id) = true := by rw [← hid]; exact hq
        simp only [List.find?, hq, hq2, Option.map_some']
        exact congrArg some hw
      · have hq1 : (w.id == id) = false := by simpa using hq
        have hq2 : (w'.id == id) = false := by rw [← hid]; exact hq1
        simp only [List.find?, hq1, hq2]
        exact ih t' ht

/-- The children loop of the measuring pass depends only on the size
view of the widget store (given that the container recursion does). -/
theorem measure_children_congr (fuel : Nat) (c : Container) (cs : List Container)
    (hP : ∀ c' ws ws', sizeView ws = sizeView ws' →
      measure_container fuel c' cs ws = measure_container fuel c' cs ws') :
    ∀ (children : List Child) (cursor mx : F32) (ws ws' : List ButtonWidget),
      sizeView ws = sizeView ws' →
      measure_children fuel c cs ws children cursor mx =
        measure_children fuel c cs ws' children cursor mx := by
  intro children
  induction children with
  | nil => intro cursor mx ws ws' h; simp [measure_children]
  | cons ch rest ih =>
    intro cursor mx ws ws' h
    cases ch with
    | widget id =>
      have hf := find?_sizeView id ws ws' h
      simp only [measure_children]
      cases hfind : ws.find? (fun w => w.id == id) with
      | none =>
        cases hfind' : ws'.find? (fun w => w.id == id) with
        | none => exact ih cursor mx ws ws' h
        | some w' => rw [hfind, hfind'] at hf; simp at hf
      | some w =>
        cases hfind' : ws'.find? (fun w => w.id == id) with
        | none => rw [hfind, hfind'] at hf; simp at hf
        | some w' =>
          rw [hfind, hfind'] at hf
          simp only [Option.map_some', Option.some.injEq] at hf
          have hww : w.bounds.w = w'.bounds.w := congrArg (fun p => p.2.1) hf
          have hwh : w.bounds.h = w'.bounds.h := congrArg (fun p => p.2.2) hf
          cases c.direction <;> dsimp only <;> rw [hww, hwh] <;> exact ih _ _ ws ws' h
    | container j =>
      simp only [measure_children]
      rw [hP (cs.getD j default) ws ws' h]
      cases c.direction <;> dsimp only <;> exact ih _ _ ws ws' h

/-- The measuring pass depends only on the size view of the store. -/
theorem measure_container_congr :
    ∀ (fuel : Nat) (c : Container) (cs : List Container) (ws ws' : List ButtonWidget),
      sizeView ws = sizeView ws' →
      measure_container fuel c cs ws = measure_container fuel c cs ws' := by
  intro fuel
  induction fuel with
  | zero => intro c cs ws ws' h; simp [measure_container]
  | succ f ihf =>
    intro c cs ws ws' h
    simp only [measure_container]
    rw [measure_children_congr f c cs (fun c' => ihf c' cs) c.children c.padding 0 ws ws' h]

/-- Applying a concatenation of plans applies them in order. -/
theorem applyWrites_append (P Q : List PosWrite) (ws : List ButtonWidget) :
    applyWrites (P ++ Q) ws = applyWrites Q (applyWrites P ws) := by
  induction P generalizing ws with
  | nil => rfl
  | cons p P ih => simp [applyWrites, ih]

/-- Applying a plan never changes identities, widths or heights. -/
theorem applyWrites_sizeView (P : List PosWrite) (ws : List ButtonWidget) :
    sizeView (applyWrites P ws) = sizeView ws := by
  induction P generalizing ws with
  | nil => rfl
  | cons p P ih => rw [applyWrites, ih, writePos_sizeView]

/-- Applying a plan never changes the identity list. -/
theorem applyWrites_idsOf (P : List PosWrite) (ws : List ButtonWidget) :
    idsOf (applyWrites P ws) = idsOf ws := by
  induction P generalizing ws with
  | nil => rfl
  | cons p P ih => rw [applyWrites, ih, writePos_idsOf]

/-- The children loop of the placement pass equals applying its write
plan, where the plan reads all sizes from any store with the same size
view (given that the container recursion does). -/
theorem sco_children_eq_plan (fuel : Nat) (c : Container) (cs : List Container)
    (hP : ∀ (idx : Nat) (x y : F32) (ws ws' : List ButtonWidget), sizeView ws' = sizeView ws →
      set_container_origin fuel idx x y cs ws' = applyWrites (planSCO fuel idx x y cs ws) ws') :
    ∀ (children : List Child) (cursor x y : F32) (ws ws' : List ButtonWidget),
      sizeView ws' = sizeView ws →
      sco_children fuel c cs children cursor x y ws' =
        applyWrites (planSCOChildren fuel c cs children cursor x y ws) ws' := by
  intro children
  induction children with
  | nil => intro cursor x y ws ws' h; simp [sco_children, planSCOChildren, applyWrites]
  | cons ch rest ih =>
    intro cursor x y ws ws' h
    cases ch with
    | widget id =>
      have hf := find?_sizeView id ws' ws h
      simp only [sco_children, planSCOChildren]
      cases hfind : ws.find? (fun w => w.id == id) with
      | none =>
        cases hfind' : ws'.find? (fun w => w.id == id) with
        | none => dsimp only; exact ih cursor x y ws ws' h
        | some w' => rw [hfind, hfind'] at hf; simp at hf
      | some w =>
        cases hfind' : ws'.find? (fun w => w.id == id) with
        | none => rw [hfind, hfind'] at hf; simp at hf
        | some w' =>
          rw [hfind, hfind'] at hf
          simp only [Option.map_some', Option.some.injEq] at hf
          have hww : w'.bounds.w = w.bounds.w := congrArg (fun p => p.2.1) hf
          have hwh : w'.bounds.h = w.bounds.h := congrArg (fun p => p.2.2) hf
          cases c.direction with
          | H =>
            dsimp only
            simp only [applyWrites]
            rw [hww]
            exact ih _ x y ws (writePos id (x + cursor) (y + c.padding) ws')
              ((writePos_sizeView _ _ _ _).trans h)
          | V =>
            dsimp only
            simp only [applyWrites]
            rw [hwh]
            exact ih _ x y ws (writePos id (x + c.padding) (y + cursor) ws')
              ((writePos_sizeView _ _ _ _).trans h)
    | container j =>
      simp only [sco_children, planSCOChildren]
      have hm := measure_container_congr fuel (cs.getD j default) cs ws' ws h
      cases c.direction with
      | H =>
        dsimp only
        rw [hm, applyWrites_append, hP j (x + cursor) (y + c.padding) ws ws' h]
        exact ih _ x y ws (applyWrites (planSCO fuel j (x + cursor) (y + c.padding) cs ws) ws')
          ((applyWrites_sizeView _ _).trans h)
      | V =>
        dsimp only
        rw [hm, applyWrites_append, hP j (x + c.padding) (y + cursor) ws ws' h]
        exact ih _ x y ws (applyWrites (planSCO fuel j (x + c.padding) (y + cursor) cs ws) ws')
          ((applyWrites_sizeView _ _).trans h)

/-- The placement pass equals applying its write plan (where the plan may
read sizes from any store with the same size view). -/
theorem set_container_origin_eq_plan :
    ∀ (fuel : Nat) (idx : Nat) (x y : F32) (cs : List Container)
      (ws ws' : List ButtonWidget), sizeView ws' = sizeView ws →
      set_container_origin fuel idx x y cs ws' = applyWrites (planSCO fuel idx x y cs ws) ws' := by
  intro fuel
  induction fuel with
  | zero => intro idx x y cs ws ws' h; simp [set_container_origin, planSCO, applyWrites]
  | succ f ihf =>
    intro idx x y cs ws ws' h
    simp only [set_container_origin, planSCO]
    exact sco_children_eq_plan f (cs.getD idx default) cs
      (fun idx x y ws ws' h => ihf idx x y cs ws ws' h) _ _ x y ws ws' h

/-- The placement pass never changes identities, widths or heights. -/
theorem set_container_origin_sizeView (fuel idx : Nat) (x y : F32)
    (cs : List Container) (ws : List ButtonWidget) :
    sizeView (set_container_origin fuel idx x y cs ws) = sizeView ws := by
  rw [set_container_origin_eq_plan fuel idx x y cs ws ws rfl, applyWrites_sizeView]

/-- The children loop of Container::compute writes exactly its plan. -/
theorem compute_children_fst_eq_plan (fuel : Nat) (c : Container) (cs : List Container) :
    ∀ (children : List Child) (cursor mx : F32) (ws ws' : List ButtonWidget),
      sizeView ws' = sizeView ws →
      (compute_children fuel c cs children cursor mx ws').1 =
        applyWrites (planComputeChildren fuel c cs children cursor ws) ws' := by
  intro children
  induction children with
  | nil => intro cursor mx ws ws' h; simp [compute_children, planComputeChildren, applyWrites]
  | cons ch rest ih =>
    intro cursor mx ws ws' h
    cases ch with
    | widget id =>
      have hf := find?_sizeView id ws' ws h
      simp only [compute_children, planComputeChildren]
      cases hfind : ws.find? (fun w => w.id == id) with
      | none =>
        cases hfind' : ws'.find? (fun w => w.id == id) with
        | none => dsimp only; exact ih cursor mx ws ws' h
        | some w' => rw [hfind, hfind'] at hf; simp at hf
      | some w =>
        cases hfind' : ws'.find? (fun w => w.id == id) with
        | none => rw [hfind, hfind'] at hf; simp at hf
        | some w' =>
          rw [hfind, hfind'] at hf
          simp only [Option.map_some', Option.some.injEq] at hf
          have hww : w'.bounds.w = w.bounds.w := congrArg (fun p => p.2.1) hf
          have hwh : w'.bounds.h = w.bounds.h := congrArg (fun p => p.2.2) hf
          cases c.direction with
          | H =>
            dsimp only
            simp only [applyWrites]
            rw [hww]
            exact ih _ _ ws (writePos id (c.x + cursor) (c.y + c.padding) ws')
              ((writePos_sizeView _ _ _ _).trans h)
          | V =>
            dsimp only
            simp only [applyWrites]
            rw [hwh]
            exact ih _ _ ws (writePos id (c.x + c.padding) (c.y + cursor) ws')
              ((writePos_sizeView _ _ _ _).trans h)
    | container j =>
      simp only [compute_children, planComputeChildren]
      have hm := measure_container_congr fuel (cs.getD j default) cs ws' ws h
      cases c.direction with
      | H =>
        dsimp only
        rw [hm, applyWrites_append,
          set_container_origin_eq_plan fuel j (c.x + cursor) (c.y + c.padding) cs ws ws' h]
        exact ih _ _ ws
          (applyWrites (planSCO fuel j (c.x + cursor) (c.y + c.padding) cs ws) ws')
          ((applyWrites_sizeView _ _).trans h)
      | V =>
        dsimp only
        rw [hm, applyWrites_append,
          set_container_origin_eq_plan fuel j (c.x + c.padding) (c.y + cursor) cs ws ws' h]
        exact ih _ _ ws
          (applyWrites (planSCO fuel j (c.x + c.padding) (c.y + cursor) cs ws) ws')
          ((applyWrites_sizeView _ _).trans h)

/-- The widget-list component of Container::compute is the children loop's. -/
theorem Container.compute_fst (fuel : Nat) (c : Container) (cs : List Container)
    (ws : List ButtonWidget) :
    (Container.compute fuel c cs ws).1 =
      (compute_children fuel c cs c.children c.padding 0 ws).1 := by
  simp only [Container.compute]
  cases c.direction <;> rfl

/-- The root loop of compute_all writes exactly its plan. -/
theorem compute_all_go_eq_plan (fuel : Nat) (all : List Container) :
    ∀ (cs : List Container) (idx : Nat) (ws ws' : List ButtonWidget),
      sizeView ws' = sizeView ws →
      compute_all_go fuel all idx cs ws' = applyWrites (planComputeAll fuel all idx cs ws) ws' := by
  intro cs
  induction cs with
  | nil => intro idx ws ws' h; simp [compute_all_go, planComputeAll, applyWrites]
  | cons c rest ih =>
    intro idx ws ws' h
    simp only [compute_all_go, planComputeAll]
    by_cases hc : isChildAnywhere all idx = true
    · simp only [if_pos hc]
      exact ih (idx + 1) ws ws' h
    · simp only [if_neg hc]
      rw [applyWrites_append]
      have hcf : (Container.compute fuel c all ws').1 =
          applyWrites (planComputeChildren fuel c all c.children c.padding ws) ws' := by
        rw [Container.compute_fst]
        exact compute_children_fst_eq_plan fuel c all c.children c.padding 0 ws ws' h
      rw [hcf]
      exact ih (idx + 1) ws
        (applyWrites (planComputeChildren fuel c all c.children c.padding ws) ws')
        ((applyWrites_sizeView _ _).trans h)

/-- The identity list of a cons. -/
theorem idsOf_cons (w : ButtonWidget) (t : List ButtonWidget) :
    idsOf (w :: t) = w.id :: idsOf t := rfl

/-- Pointwise effect of a single position write: it lands on the index
of the first widget whose identity matches, everything else unchanged. -/
theorem writePos_getElem? (id : Nat) (px py : F32) :
    ∀ (ws : List ButtonWidget) (i : Nat),
      (writePos id px py ws)[i]? =
        match firstIdx id (idsOf ws) with
        | some k => if i = k then ws[i]?.map (setPosF px py) else ws[i]?
        | none => ws[i]? := by
  intro ws
  induction ws with
  | nil => intro i; simp [writePos, firstIdx, idsOf]
  | cons w t ih =>
    intro i
    simp only [writePos, idsOf, List.map_cons, firstIdx]
    have ih' : ∀ i, (writePos id px py t)[i]? =
        match firstIdx id (List.map (fun w => w.id) t) with
        | some k => if i = k then t[i]?.map (setPosF px py) else t[i]?
        | none => t[i]? := by simpa only [idsOf] using ih
    by_cases hq : (w.id == id) = true
    · simp only [if_pos hq]
      cases i with
      | zero => simp [ButtonWidget.set_bounds, setPosF]
      | succ j => simp
    · simp only [if_neg hq]
      cases i with
      | zero =>
        cases hfi : firstIdx id (List.map (fun w => w.id) t) with
        | none => simp
        | some k => simp
      | succ j =>
        have hj := ih' j
        cases hfi : firstIdx id (List.map (fun w => w.id) t) with
        | none =>
          rw [hfi] at hj
          simpa using hj
        | some k =>
          rw [hfi] at hj
          dsimp only at hj
          simp only [Option.map_some', List.getElem?_cons_succ]
          by_cases hjk : j = k
          · rw [if_pos (by omega : j + 1 = k + 1)]
            rw [if_pos hjk] at hj
            exact hj
          · rw [if_neg (by omega : ¬j + 1 = k + 1)]
            rw [if_neg hjk] at hj
            exact hj

/-- Pointwise effect of a whole plan: the last write landing on the
index wins, indices never written keep their widget unchanged. -/
theorem applyWrites_getElem? :
    ∀ (P : List PosWrite) (ws : List ButtonWidget) (i : Nat),
      (applyWrites P ws)[i]? =
        match lastHit (idsOf ws) i P with
        | some v => ws[i]?.map (setPosF v.1 v.2)
        | none => ws[i]? := by
  intro P
  induction P with
  | nil => intro ws i; simp [applyWrites, lastHit]
  | cons p P ih =>
    intro ws i
    simp only [applyWrites, lastHit]
    rw [ih (writePos p.1 p.2.1 p.2.2 ws) i, writePos_idsOf]
    cases hl : lastHit (idsOf ws) i P with
    | some v =>
      dsimp only
      rw [writePos_getElem?]
      cases hfi : firstIdx p.1 (idsOf ws) with
      | none => rfl
      | some k =>
        dsimp only
        by_cases hik : i = k
        · rw [if_pos hik]
          cases hw : ws[i]? <;> simp [setPosF]
        · rw [if_neg hik]
    | none =>
      dsimp only
      rw [writePos_getElem?]
      cases hfi : firstIdx p.1 (idsOf ws) with
      | none => simp
      | some k =>
        dsimp only
        by_cases hik : i = k
        · subst hik
          rw [if_pos rfl, if_pos rfl]
        · rw [if_neg hik, if_neg (by simpa [eq_comm] using hik)]

/-- Applying the same plan twice is the same as applying it once: each
index ends at its last write either way. -/
theorem applyWrites_idem (P : List PosWrite) (ws : List ButtonWidget) :
    applyWrites P (applyWrites P ws) = applyWrites P ws := by
  apply List.ext_getElem?
  intro i
  rw [applyWrites_getElem? P (applyWrites P ws) i, applyWrites_idsOf,
    applyWrites_getElem? P ws i]
  cases hl : lastHit (idsOf ws) i P with
  | none => rfl
  | some v =>
    dsimp only
    cases hw : ws[i]? <;> simp [setPosF]

/-! Claim C5: compute_all is idempotent. -/

/-- C5: running compute_all a second time with unchanged widget sizes is
a no-op — the whole widget store, and in particular every widget's
(x, y) position, is the same after the second call as after the first.
The fuel argument only bounds the container recursion depth and is the
same for both calls. -/
theorem compute_all_idempotent (fuel : Nat) (lm : LayoutManager) (ws : List ButtonWidget) :
    LayoutManager.compute_all fuel lm (LayoutManager.compute_all fuel lm ws) =
      LayoutManager.compute_all fuel lm ws := by
  have h1 : LayoutManager.compute_all fuel lm ws =
      applyWrites (planComputeAll fuel lm.containers 0 lm.containers ws) ws :=
    compute_all_go_eq_plan fuel lm.containers lm.containers 0 ws ws rfl
  have h2 : sizeView (LayoutManager.compute_all fuel lm ws) = sizeView ws := by
    rw [h1, applyWrites_sizeView]
  have h3 : LayoutManager.compute_all fuel lm (LayoutManager.compute_all fuel lm ws) =
      applyWrites (planComputeAll fuel lm.containers 0 lm.containers ws)
        (LayoutManager.compute_all fuel lm ws) :=
    compute_all_go_eq_plan fuel lm.containers lm.containers 0 ws
      (LayoutManager.compute_all fuel lm ws) h2
  rw [h3]
  conv_lhs => rw [h1]
  rw [applyWrites_idem, ← h1]

/-! Claim C3: the container size law. -/

/-- Summing a constant shift over a list. -/
theorem sum_map_add_const (es : List F32) (g : F32) :
    (es.map (fun e => e + g)).sum = es.sum + g * es.length := by
  induction es with
  | nil => simp
  | cons e es ih =>
    simp only [List.map_cons, List.sum_cons, List.length_cons, ih]
    push_cast
    ring

/-- The measuring loop over fully resolvable children advances the
cursor by each extent plus one gap. -/
theorem measure_children_extents (fuel : Nat) (c : Container) (cs : List Container)
    (ws : List ButtonWidget) (hdir : c.direction = Direction.H) :
    ∀ (children : List Child) (es : List F32) (cursor mx : F32),
      childExtents fuel Direction.H cs ws children = some es →
      (measure_children fuel c cs ws children cursor mx).1 =
        cursor + (es.map (fun e => e + c.gap)).sum := by
  intro children
  induction children with
  | nil =>
    intro es cursor mx h
    simp only [childExtents, Option.some.injEq] at h
    subst h
    simp [measure_children]
  | cons ch rest ih =>
    intro es cursor mx h
    cases ch with
    | widget id =>
      simp only [childExtents, childMainExtent] at h
      cases hfind : ws.find? (fun w => w.id == id) with
      | none => rw [hfind] at h; simp at h
      | some w =>
        rw [hfind] at h
        cases hrest : childExtents fuel Direction.H cs ws rest with
        | none => rw [hrest] at h; simp at h
        | some es' =>
          rw [hrest] at h
          simp only [Option.map_some'] at h
          try dsimp only at h
          simp only [Option.some.injEq] at h
          subst h
          simp only [measure_children, hfind, hdir]
          try dsimp only
          rw [ih es' _ _ hrest]
          simp only [List.map_cons, List.sum_cons]
          ring
    | container j =>
      simp only [childExtents, childMainExtent] at h
      cases hrest : childExtents fuel Direction.H cs ws rest with
      | none => rw [hrest] at h; simp at h
      | some es' =>
        rw [hrest] at h
        try dsimp only at h
        simp only [Option.some.injEq] at h
        subst h
        simp only [measure_children, hdir]
        try dsimp only
        rw [ih es' _ _ hrest]
        simp only [List.map_cons, List.sum_cons]
        ring

/-- The size accumulator of Container::compute equals the pure measuring
pass on any store with the same size view: the two structurally identical
walks never drift apart, because the placement writes touch positions
only. -/
theorem compute_children_snd_eq_measure (fuel : Nat) (c : Container) (cs : List Container) :
    ∀ (children : List Child) (cursor mx : F32) (ws ws' : List ButtonWidget),
      sizeView ws' = sizeView ws →
      (compute_children fuel c cs children cursor mx ws').2 =
        measure_children fuel c cs ws children cursor mx := by
  intro children
  induction children with
  | nil => intro cursor mx ws ws' h; simp [compute_children, measure_children]
  | cons ch rest ih =>
    intro cursor mx ws ws' h
    cases ch with
    | widget id =>
      have hf := find?_sizeView id ws' ws h
      simp only [compute_children, measure_children]
      cases hfind : ws.find? (fun w => w.id == id) with
      | none =>
        cases hfind' : ws'.find? (fun w => w.id == id) with
        | none => dsimp only; exact ih cursor mx ws ws' h
        | some w' => rw [hfind, hfind'] at hf; simp at hf
      | some w =>
        cases hfind' : ws'.find? (fun w => w.id == id) with
        | none => rw [hfind, hfind'] at hf; simp at hf
        | some w' =>
          rw [hfind, hfind'] at hf
          simp only [Option.map_some', Option.some.injEq] at hf
          have hww : w'.bounds.w = w.bounds.w := congrArg (fun p => p.2.1) hf
          have hwh : w'.bounds.h = w.bounds.h := congrArg (fun p => p.2.2) hf
          cases c.direction with
          | H =>
            dsimp only
            rw [hww, hwh]
            exact ih _ _ ws (writePos id (c.x + cursor) (c.y + c.padding) ws')
              ((writePos_sizeView _ _ _ _).trans h)
          | V =>
            dsimp only
            rw [hww, hwh]
            exact ih _ _ ws (writePos id (c.x + c.padding) (c.y + cursor) ws')
              ((writePos_sizeView _ _ _ _).trans h)
    | container j =>
      simp only [compute_children, measure_children]
      have hm := measure_container_congr fuel (cs.getD j default) cs ws' ws h
      cases c.direction with
      | H =>
        dsimp only
        rw [hm]
        exact ih _ _ ws
          (set_container_origin fuel j (c.x + cursor) (c.y + c.padding) cs ws')
          ((set_container_origin_sizeView _ _ _ _ _ _).trans h)
      | V =>
        dsimp only
        rw [hm]
        exact ih _ _ ws
          (set_container_origin fuel j (c.x + c.padding) (c.y + cursor) cs ws')
          ((set_container_origin_sizeView _ _ _ _ _ _).trans h)

/-- The size returned by the placement pass Container::compute equals
the measuring pass at one more unit of fuel. -/
theorem compute_snd_eq_measure (fuel : Nat) (c : Container) (cs : List Container)
    (ws : List ButtonWidget) :
    (Container.compute fuel c cs ws).2 = measure_container (fuel + 1) c cs ws := by
  have hsub := compute_children_snd_eq_measure fuel c cs c.children c.padding 0 ws ws rfl
  simp only [Container.compute, measure_container]
  rw [hsub]
  cases c.direction <;> rfl

/-- C3 counterexample: a horizontal container with zero children, padding
0 and gap 16 measures main-axis extent -16 (one gap subtracted below the
2p = 0 the claim demands), in both the measuring and the placement pass. -/
theorem measure_empty_container_negative_cex :
    (measure_container 1 ⟨Direction.H, 0, 0, 0, 16, []⟩ [] []).1 = -16 ∧
      (Container.compute 0 ⟨Direction.H, 0, 0, 0, 16, []⟩ [] []).2.1 = -16 := by
  constructor <;>
    norm_num [measure_container, measure_children, Container.compute, compute_children]

/-- C3 amended: for a horizontal container whose n children all resolve
to main-axis extents es, both the measuring pass and the placement pass
compute the main-axis extent sum(es) + gap * (n - 1) + 2 * padding, where
n - 1 is computed in the rationals: for n = 0 the result is 2 * padding
minus one gap (no clamping), and for n >= 1 it is the claimed law. -/
theorem hstack_size_law (fuel : Nat) (c : Container) (cs : List Container)
    (ws : List ButtonWidget) (es : List F32)
    (hdir : c.direction = Direction.H)
    (hres : childExtents fuel Direction.H cs ws c.children = some es) :
    (measure_container (fuel + 1) c cs ws).1 =
        es.sum + c.gap * ((es.length : F32) - 1) + 2 * c.padding ∧
      (Container.compute fuel c cs ws).2.1 =
        es.sum + c.gap * ((es.length : F32) - 1) + 2 * c.padding := by
  have hm : (measure_container (fuel + 1) c cs ws).1 =
      es.sum + c.gap * ((es.length : F32) - 1) + 2 * c.padding := by
    simp only [measure_container]
    rw [hdir]
    dsimp only
    rw [measure_children_extents fuel c cs ws hdir c.children es c.padding 0 hres,
      sum_map_add_const]
    ring
  refine ⟨hm, ?_⟩
  rw [compute_snd_eq_measure]
  exact hm

/-- Witness for the amended C3 theorem: a horizontal container with
padding 2 and gap 3 holding two widgets of widths 5 and 7 measures
5 + 7 + 3 * (2 - 1) + 2 * 2 = 19 in both passes. -/
theorem hstack_size_law_witness :
    (measure_container 1
          ⟨Direction.H, 0, 0, 2, 3, [Child.widget 0, Child.widget 1]⟩ []
          [ { ButtonWidget.new 0 ("a") with bounds := { w := 5, h := 1 } },
            { ButtonWidget.new 1 ("b") with bounds := { w := 7, h := 2 } } ]).1 =
        [(5 : F32), 7].sum + 3 * ((([(5 : F32), 7].length : F32)) - 1) + 2 * 2 ∧
      (Container.compute 0
          ⟨Direction.H, 0, 0, 2, 3, [Child.widget 0, Child.widget 1]⟩ []
          [ { ButtonWidget.new 0 ("a") with bounds := { w := 5, h := 1 } },
            { ButtonWidget.new 1 ("b") with bounds := { w := 7, h := 2 } } ]).2.1 =
        [(5 : F32), 7].sum + 3 * ((([(5 : F32), 7].length : F32)) - 1) + 2 * 2 :=
  hstack_size_law 0
    ⟨Direction.H, 0, 0, 2, 3, [Child.widget 0, Child.widget 1]⟩ []
    [ { ButtonWidget.new 0 ("a") with bounds := { w := 5, h := 1 } },
      { ButtonWidget.new 1 ("b") with bounds := { w := 7, h := 2 } } ]
    [5, 7] rfl (by rfl)

end Rentex
